import Mathlib

/-!
Verification of the chat orchestration core of the `chatter` repository
(`backend/app/services/chat.py`, `conversation.py`, `mcp_config.py`,
`preconfigured_mcp_config.py` and the models they use).

The Python code is shallowly embedded: pure helpers become Lean
functions, the streaming generators become folds over explicit chunk
lists that return the list of yielded events together with the
exception (if any) that escaped the generator, and database writes
become explicit lists of persisted rows.  Python strings are modelled
by `String`; the slicing / suffix primitives used by the source
(`str.endswith`, `s[0:-2]`) are modelled on the underlying character
list, which has the same semantics.  `json.loads` is a language
primitive, not repository code, so it is abstracted as a parameter
`parse : String → Option J` (a `none` result models a raised
`json.JSONDecodeError`).  Payload fields that the orchestration logic
never branches on (tool descriptions, input schemas, ids, timestamps)
are elided from the row structures.
-/

namespace Chatter

/-! ### Call-code helpers (chat.py, lines 50-67) -/

/-- Embeds `user_code`: `return code + "_u"`. -/
def user_code (code : String) : String :=
  code ++ "_u"

/-- Embeds `preconfigured_code`: `return code + "_p"`. -/
def preconfigured_code (code : String) : String :=
  code ++ "_p"

/-- Embeds `is_user_call_code`: `return name.endswith("_u")`.  Python
`s.endswith(t)` for a two-character `t` holds iff the last two
characters of `s` are `t`, which is what the reversed-take test
computes (a string shorter than two characters never matches). -/
def is_user_call_code (name : String) : Bool :=
  name.data.reverse.take 2 == ['u', '_']

/-- Embeds `is_preconfigured_call_code`: `return name.endswith("_p")`. -/
def is_preconfigured_call_code (name : String) : Bool :=
  name.data.reverse.take 2 == ['p', '_']

/-- Embeds `remove_call_code_suffix`: `return name[0:-2]`, i.e. drop the
last two characters (Python slicing yields `""` when `len(name) < 2`,
exactly as dropping the last element twice does). -/
def remove_call_code_suffix (name : String) : String :=
  ⟨name.data.dropLast.dropLast⟩

/-- Embeds Python `s.split("__")` on the character list: left-to-right,
non-overlapping, keeping empty parts (`"".split("__") == [""]`,
`"a__".split("__") == ["a", ""]`). -/
def split_dunder_chars : List Char → List (List Char)
  | [] => [[]]
  | '_' :: '_' :: rest => [] :: split_dunder_chars rest
  | c :: rest =>
    match split_dunder_chars rest with
    | [] => [[c]]
    | t :: ts => (c :: t) :: ts

/-- Embeds Python `s.split("__")` on strings. -/
def split_dunder (s : String) : List String :=
  (split_dunder_chars s.data).map fun l => ⟨l⟩

/-- The two origins a namespaced catalog code can resolve to. -/
inductive CallOrigin where
  | user
  | preconfigured
deriving DecidableEq

/-- The origin-dispatch on a proposed call name, exactly the suffix
tests the source branches on (`is_user_call_code` first, then
`is_preconfigured_call_code`; the two suffixes are mutually
exclusive): `none` means the name carries neither origin suffix. -/
def call_code_origin (name : String) : Option CallOrigin :=
  if is_user_call_code name then some .user
  else if is_preconfigured_call_code name then some .preconfigured
  else none

/-! ### Preconfigured tool servers (preconfigured_mcp_config.py) -/

/-- Row of `preconfigured_mcp_configs` (model
`PreconfiguredMCPConfig`); only the fields the orchestration reads. -/
structure PreconfiguredMCPConfig where
  code : String
  enabled : Bool
deriving DecidableEq

/-- Shape of a tool descriptor (`MCPToolShape`); the `description` and
`inputSchema` payloads are elided, the logic only reads `name`. -/
structure MCPToolShape where
  name : String
deriving DecidableEq

/-- Embeds `shape_name`: `(config.code + "__" + name) if should_prefix
else name` (parameter renamed to `prefixed`). -/
def shape_name (config : PreconfiguredMCPConfig) (name : String) (prefixed : Bool) : String :=
  if prefixed then config.code ++ "__" ++ name else name

/-- Embeds `get_preconfigured_tools`: the fixed in-code set of built-in
tool servers — the `fetch` server exposes one tool `fetch`, the
`sequentialthinking` server exposes one tool `sequentialthinking`, any
other code exposes nothing. -/
def get_preconfigured_tools (config : PreconfiguredMCPConfig) (prefixed : Bool) : List MCPToolShape :=
  if config.code = "fetch" then
    [⟨shape_name config "fetch" prefixed⟩]
  else if config.code = "sequentialthinking" then
    [⟨shape_name config "sequentialthinking" prefixed⟩]
  else
    []

/-- Embeds `get_preconfigured_url`; the bare `raise` on an unknown code
is modelled by `none`. -/
def get_preconfigured_url (code : String) : Option String :=
  if code = "sequentialthinking" then
    some "https://remote.mcpservers.org/sequentialthinking/mcp"
  else if code = "fetch" then
    some "https://remote.mcpservers.org/fetch/mcp"
  else
    none

/-! ### User tool rows and the merged catalog
(chat.py, `generate_chat_response`, lines 301-335) -/

/-- Row of `mcp_tools` (model `MCPTool`); `code` is the stored short
code (globally unique by the `uq_tool_code` constraint), `name` the
remote tool name, and `mcp_config_url` flattens the `mcp_config`
back-reference to the only field of it the executor reads
(`mcp_config.url`). -/
structure MCPTool where
  code : String
  name : String
  mcp_config_url : String
deriving DecidableEq

/-- Row of `mcp_configs` (model `MCPConfig`) with its tool rows. -/
structure MCPConfig where
  url : String
  tools : List MCPTool
deriving DecidableEq

/-- Embeds the catalog-building loop of `generate_chat_response`
(`tool_calling = True` path): every tool of every user config is added
under `user_code(tool.code)`, then every tool of every *enabled*
preconfigured config is added under `preconfigured_code(shape.name)`
with the prefixed shape name. -/
def generate_catalog (user_configs : List MCPConfig)
    (preconfigured_configs : List PreconfiguredMCPConfig) : List MCPToolShape :=
  (user_configs.flatMap fun config => config.tools.map fun tool => ⟨user_code tool.code⟩)
    ++ ((preconfigured_configs.filter (·.enabled)).flatMap fun pc =>
          (get_preconfigured_tools pc true).map fun shape => ⟨preconfigured_code shape.name⟩)

/-! ### Provider message formatting
(chat.py, `_generate_litellm_response`, lines 169-205) -/

/-- One entry of the history list handed to
`_generate_litellm_response`; `content = none` models a dict without a
`"content"` key. -/
structure HistoryMessage where
  role : String
  content : Option String
deriving DecidableEq

/-- One role/content pair of the payload sent to the provider. -/
structure ProviderMessage where
  role : String
  content : String
deriving DecidableEq

/-- The fixed synthetic system-instruction message prepended to every
provider payload (the `anwer` typo is in the source). -/
def system_instruction : ProviderMessage :=
  ⟨"system", "Remember... If a question is unrelated to functions provided to you, use your intrinsic knowledge to anwer the question."⟩

/-- Embeds the body of the per-message formatting loop: messages
without a `content` key are skipped, `user`/`assistant` pass through,
`system` is forwarded as a `user` message with a `System: ` prefix,
`function_call` / `function_call_result` are wrapped in delimiter
blocks as assistant turns, and any other role is silently dropped. -/
def format_message (msg : HistoryMessage) : Option ProviderMessage :=
  match msg.content with
  | none => none
  | some c =>
    if msg.role = "user" then some ⟨"user", c⟩
    else if msg.role = "assistant" then some ⟨"assistant", c⟩
    else if msg.role = "system" then some ⟨"user", "System: " ++ c⟩
    else if msg.role = "function_call" then
      some ⟨"assistant", "\n<tool_call_parameters>\n    " ++ c ++ "\n</tool_call_parameters>\n"⟩
    else if msg.role = "function_call_result" then
      some ⟨"assistant", "\n<tool_call_response>\n    " ++ c ++ "\n</tool_call_response>\n"⟩
    else none

/-- Embeds the construction of `formatted_messages`: the fixed system
instruction followed by the formatted history. -/
def format_messages (msgs : List HistoryMessage) : List ProviderMessage :=
  system_instruction :: msgs.filterMap format_message

/-- Embeds the message list of the secondary title-generation
completion call (`generate_and_set_conversation_title` passes a single
user message through `generate_chat_response`, which reaches the same
`_generate_litellm_response` formatting). -/
def title_generation_messages (prompt : String) : List ProviderMessage :=
  format_messages [⟨"user", some prompt⟩]

/-! ### Stream reconstructor
(chat.py, `_generate_litellm_response`, lines 221-276)

The litellm stream is modelled as the list of chunk deltas that were
received, followed by a termination: `normal` end of stream, or an
`AuthenticationError` / `APIStatusError` raised by the transport while
the next chunk was awaited.  Chunks whose `choices` list is empty or
whose delta is absent are skipped by the source (`continue`) and are
therefore not represented.  `delta.tool_calls[0]` is modelled as the
optional `toolCall` field.  The generator is a fold that returns the
events yielded so far together with the exception (if any) that
escaped the generator body — `json.loads` failure at a flush, or the
explicit `ValueError` raised when argument fragments arrive with no
open buffer. -/

/-- The in-flight call buffer (`unfinished_call`). -/
structure UnfinishedCall where
  name : String
  arguments : String
deriving DecidableEq

/-- The `function` part of a streamed tool-call delta. -/
structure FunctionDelta where
  name : Option String
  arguments : Option String
deriving DecidableEq

/-- One element of `delta.tool_calls` (only index 0 is read). -/
structure ToolCallDelta where
  id : Option String
  function : Option FunctionDelta
deriving DecidableEq

/-- One stream chunk delta: `delta.tool_calls[0]` (if the list is
non-empty) and `delta.content`. -/
structure Chunk where
  toolCall : Option ToolCallDelta
  content : Option String
deriving DecidableEq

/-- How the provider stream ends: normally, or with a transport
exception raised while awaiting the next chunk. -/
inductive StreamTermination where
  | normal
  | authFail
  | apiFail (msg : String)
deriving DecidableEq

/-- Exceptions that escape the reconstructing generator: a
`json.JSONDecodeError` from `json.loads` at a flush point, or the
`ValueError("Previous buffered call must be set ...")`. -/
inductive RErr where
  | jsonDecode
  | bufferNotSet
deriving DecidableEq

/-- Events yielded by `_generate_litellm_response` (`StreamEvent`);
`functionCall` carries the parsed arguments value. -/
inductive REvent (J : Type) where
  | text (delta : String)
  | functionCall (name : String) (args : J)
  | authError
  | apiError (msg : String)
deriving DecidableEq

variable {J : Type}

/-- Embeds the flush of a buffered call (lines 241-245 and 267-271):
`json.loads` the accumulated argument text and yield a
`function_call` event. -/
def flushCall (parse : String → Option J) (buf : UnfinishedCall) :
    Except RErr (REvent J) :=
  match parse buf.arguments with
  | none => .error .jsonDecode
  | some v => .ok (.functionCall buf.name v)

/-- Embeds lines 252-261: apply a `function` delta to the open buffer —
a truthy (non-empty) `name` overwrites the buffered name, and
`arguments or ""` is appended.  A missing buffer raises the
`ValueError` of the source. -/
def applyFunctionDelta (st : Option UnfinishedCall) (fd : FunctionDelta) :
    Except RErr UnfinishedCall :=
  match st with
  | none => .error .bufferNotSet
  | some buf =>
    let buf1 :=
      match fd.name with
      | some n => if n ≠ "" then { buf with name := n } else buf
      | none => buf
    .ok { buf1 with arguments := buf1.arguments ++ (fd.arguments.getD "") }

/-- Embeds lines 237-250: a `tool_calls` entry that carries an `id`
starts a new call — if a buffer is already open it is flushed (parsed
and yielded) first — and opens a fresh empty buffer; an entry without
an `id` leaves the buffer alone. -/
def flushIfNewCall (parse : String → Option J) (st : Option UnfinishedCall)
    (tc : ToolCallDelta) : Except RErr (Option UnfinishedCall × List (REvent J)) :=
  match tc.id with
  | none => .ok (st, [])
  | some _ =>
    match st with
    | none => .ok (some ⟨"", ""⟩, [])
    | some buf =>
      match flushCall parse buf with
      | .error e => .error e
      | .ok ev => .ok (some ⟨"", ""⟩, [ev])

/-- Embeds lines 237-261: the whole `delta.tool_calls` branch — the
possible flush followed by folding the `function` delta into the
buffer. -/
def applyToolCallDelta (parse : String → Option J) (st : Option UnfinishedCall)
    (tc : ToolCallDelta) : Except RErr (Option UnfinishedCall × List (REvent J)) :=
  match flushIfNewCall parse st tc with
  | .error e => .error e
  | .ok (st1, evs1) =>
    match tc.function with
    | none => .ok (st1, evs1)
    | some fd =>
      match applyFunctionDelta st1 fd with
      | .error e => .error e
      | .ok buf => .ok (some buf, evs1)

/-- Embeds the body of the `async for chunk in stream` loop (lines
228-264): the `tool_calls` branch runs first, then — independently —
a non-`None` `content` is yielded as a `text` event. -/
def processChunk (parse : String → Option J) (st : Option UnfinishedCall) (c : Chunk) :
    Except RErr (Option UnfinishedCall × List (REvent J)) :=
  match
    (match c.toolCall with
     | none => Except.ok (st, ([] : List (REvent J)))
     | some tc => applyToolCallDelta parse st tc) with
  | .error e => .error e
  | .ok (st1, evs1) =>
    match c.content with
    | some s => .ok (st1, evs1 ++ [.text s])
    | none => .ok (st1, evs1)

/-- Runs the chunk loop, collecting the events yielded before a
possible exception; on an exception the remaining chunks are not
processed (the generator has terminated). -/
def runChunks (parse : String → Option J) :
    Option UnfinishedCall → List Chunk →
    Option UnfinishedCall × List (REvent J) × Option RErr
  | st, [] => (st, [], none)
  | st, c :: cs =>
    match processChunk parse st c with
    | .error e => (st, [], some e)
    | .ok (st', evs) =>
      let (st'', evs', err) := runChunks parse st' cs
      (st'', evs ++ evs', err)

/-- A chunk carrying only an argument fragment of the call in
progress: no `id`, no `name`, no text content. -/
def argChunk (fragment : String) : Chunk :=
  ⟨some ⟨none, some ⟨none, some fragment⟩⟩, none⟩

/-- Embeds the whole generator body of `_generate_litellm_response`
after the completion call: run the chunk loop; on normal end of
stream flush a still-open buffer whose name is non-empty (lines
266-272); a transport exception while awaiting the next chunk is
caught by the `except` clauses and yielded as a terminal `auth_error`
or `api_error` event (lines 273-276) — those clauses do not catch the
reconstruction exceptions, which escape the generator. -/
def reconstruct (parse : String → Option J) (chunks : List Chunk)
    (term : StreamTermination) : List (REvent J) × Option RErr :=
  match runChunks parse none chunks with
  | (st, evs, err) =>
    match err with
    | some e => (evs, some e)
    | none =>
      match term with
      | .authFail => (evs ++ [.authError], none)
      | .apiFail m => (evs ++ [.apiError m], none)
      | .normal =>
        match st with
        | some buf =>
          if buf.name ≠ "" then
            match flushCall parse buf with
            | .error e => (evs, some e)
            | .ok ev => (evs ++ [ev], none)
          else (evs, none)
        | none => (evs, none)

/-- The assistant text accumulated by `event_generator` from the
stream events (`content += event.data`). -/
def stream_text (evs : List (REvent J)) : String :=
  evs.foldl (fun acc ev => match ev with | .text d => acc ++ d | _ => acc) ""

/-- The tool-call proposals buffered by `event_generator` from the
stream events (`tool_calls.append(data)`). -/
def stream_tool_calls (evs : List (REvent J)) : List (String × J) :=
  evs.filterMap fun ev =>
    match ev with
    | .functionCall n a => some (n, a)
    | _ => none

/-! ### Tool-call resolution and the caller-facing event generator
(chat.py, `handle_chat_request` / `event_generator`, lines 453-599) -/

/-- The per-user data the resolution loop reads: the private MCP
configs of the user (with their tool rows) and the preconfigured
config rows (note: the resolution loop does not check `enabled`). -/
structure ResolutionEnv where
  user_configs : List MCPConfig
  preconfigured_configs : List PreconfiguredMCPConfig
deriving DecidableEq

/-- Embeds the nested lookup loop of the `_u` branch (lines 515-530):
scan the configs in order, within each config scan the tools in order,
and stop at the first tool whose stored code equals the stripped call
code. -/
def find_user_tool (configs : List MCPConfig) (tool_code : String) : Option MCPTool :=
  (configs.flatMap (·.tools)).find? (fun tool => tool.code == tool_code)

/-- Embeds the `_p` branch loop body (lines 536-546): the first
preconfigured config whose code matches and whose (prefixed) tool list
contains `config.code + "__" + tool_name`. -/
def find_preconfigured_tool (configs : List PreconfiguredMCPConfig)
    (config_code tool_name : String) : Option MCPToolShape :=
  configs.findSome? fun config =>
    if config.code == config_code then
      (get_preconfigured_tools config true).find?
        (fun tool => tool.name == config.code ++ "__" ++ tool_name)
    else
      none

/-- Embeds the resolution of one proposed call name (lines 510-548).
The `_p` branch destructures `remove_call_code_suffix(call_code)
.split("__")` as `[config_code, tool_name, *_]`, which raises
`ValueError` when the split yields fewer than two parts; that raise is
the `.error` case.  The result is whether a concrete tool was found
(`.ok false` is the logged-and-skipped miss). -/
def resolve_call_code (env : ResolutionEnv) (call_code : String) : Except Unit Bool :=
  let fromUser : Bool :=
    if is_user_call_code call_code then
      (find_user_tool env.user_configs (remove_call_code_suffix call_code)).isSome
    else
      false
  if is_preconfigured_call_code call_code then
    match split_dunder (remove_call_code_suffix call_code) with
    | config_code :: tool_name :: _ =>
      .ok (fromUser
        || (find_preconfigured_tool env.preconfigured_configs config_code tool_name).isSome)
    | _ => .error ()
  else
    .ok fromUser

/-- The lifecycle state of a tool use (model `ToolUseState`; the
source enum also contains a stray `Baba = "nana"` member, elided as
unreachable). -/
inductive ToolUseState where
  | pending
  | approved
  | rejected
deriving DecidableEq

/-- Server-sent events produced by `event_generator`.  `messageDone`
and `functionCall` carry the persisted record they serialize. -/
inductive SSE (J : Type) where
  | userMessageId (id : String)
  | conversationCreated (id : String)
  | message (delta : String)
  | messageDone (content : String)
  | functionCall (name : String) (args : J)
  | authError
  | apiError (msg : String)
  | titleUpdated (title : String)
  | done
deriving DecidableEq

/-- Tests whether an SSE event is `auth_error`. -/
def isAuthErrorSSE : SSE J → Bool
  | .authError => true
  | _ => false

/-- Tests whether an SSE event is `message_done`. -/
def isMessageDoneSSE : SSE J → Bool
  | .messageDone _ => true
  | _ => false

/-- Rows written by the event generator for one turn: the assistant
message, and `function_call` messages each owning one `MCPToolUse`
row whose `state` column is recorded as created (see
`add_message_to_conversation`). -/
inductive PersistedRow (J : Type) where
  | assistant (content : String)
  | functionCallMsg (name : String) (args : J) (state : Option ToolUseState)
deriving DecidableEq

/-- Exceptions escaping `event_generator`: a reconstruction exception
propagating out of the consumed stream, or the `ValueError` from the
resolution unpacking. -/
inductive GenErr where
  | reconstruction (e : RErr)
  | resolveValueError
deriving DecidableEq

/-- Output of the event generator: the SSE events delivered, the rows
persisted, and the exception (if any) that aborted it. -/
structure GenOutput (J : Type) where
  events : List (SSE J)
  persisted : List (PersistedRow J)
  err : Option GenErr
deriving DecidableEq

/-- Embeds the proposal-persisting loop (lines 506-578): for each
buffered call, resolve its code; on a miss log and `continue`; on a
hit persist a `function_call` message whose `MCPToolUse` row is
created without a state (the constructor in
`add_message_to_conversation` never sets the `state` column) and yield
a `function_call` event; a resolution `ValueError` aborts the loop. -/
def process_proposals (env : ResolutionEnv) :
    List (String × J) → List (SSE J) × List (PersistedRow J) × Option GenErr
  | [] => ([], [], none)
  | (name, args) :: rest =>
    match resolve_call_code env name with
    | .error _ => ([], [], some .resolveValueError)
    | .ok false => process_proposals env rest
    | .ok true =>
      let (evs, rows, err) := process_proposals env rest
      (.functionCall name args :: evs, .functionCallMsg name args none :: rows, err)

/-- Static inputs of one `event_generator` run: the persisted user
message id (absent on a tool-decision turn), whether the conversation
was just created, its id, the resolution data, and the outcome of the
best-effort title generation (`""` models both an empty title and a
swallowed failure, since only truthiness is checked). -/
structure GenInput where
  userMsgId : Option String
  isNew : Bool
  convId : String
  env : ResolutionEnv
  titleResult : String
deriving DecidableEq

/-- The header events of one `event_generator` run: the persisted
user-message id (when a user message was persisted this turn) and the
`conversation_created` event (when the conversation is new). -/
def gen_head (inp : GenInput) : List (SSE J) :=
  (match inp.userMsgId with
   | some i => [.userMessageId i]
   | none => []) ++
  (if inp.isNew then [.conversationCreated inp.convId] else [])

/-- The events re-emitted by the consuming loop of `event_generator`
(lines 466-485): text deltas as `message`, terminal transport events
forwarded, `function_call` events buffered (not re-emitted here). -/
def consumed_events (evs : List (REvent J)) : List (SSE J) :=
  evs.filterMap fun ev =>
    match ev with
    | .text d => some (.message d)
    | .authError => some .authError
    | .apiError m => some (.apiError m)
    | .functionCall _ _ => none

/-- The `message_done` event and assistant row written after the loop
when the accumulated content is non-empty (lines 487-504). -/
def assistant_out (content : String) : List (SSE J) × List (PersistedRow J) :=
  if content ≠ "" then ([.messageDone content], [.assistant content]) else ([], [])

/-- The `conversation_title_updated` event emitted when a brand-new
conversation produced text or at least one tool call and the
best-effort title call returned a truthy title (lines 580-597). -/
def title_events (inp : GenInput) (content : String) (tool_calls : List (String × J)) :
    List (SSE J) :=
  if inp.isNew && (content != "" || !tool_calls.isEmpty) && inp.titleResult != "" then
    [.titleUpdated inp.titleResult]
  else []

/-- Embeds `event_generator` (lines 453-599) driving the reconstructor
output `rout` (its yielded events plus the exception, if any, that the
`async for` re-raises after them): emit the headers; re-emit text
deltas while accumulating `content` and buffering `function_call`
events into `tool_calls`; forward `auth_error` / `api_error`; after
the loop persist a non-empty `content` as the assistant message and
emit `message_done`; then persist and emit the buffered proposals;
then emit `conversation_title_updated` when this new conversation
produced output and the title call returned a truthy title; finally
emit `done`.  An exception from the stream or from resolution aborts
the generator at that point (no `done`). -/
def event_generator (inp : GenInput) (rout : List (REvent J) × Option RErr) :
    GenOutput J :=
  let content : String := stream_text rout.1
  let tool_calls : List (String × J) := stream_tool_calls rout.1
  match rout.2 with
  | some e => ⟨gen_head inp ++ consumed_events rout.1, [], some (.reconstruction e)⟩
  | none =>
    match process_proposals inp.env tool_calls with
    | (tcEvs, tcRows, some e) =>
      ⟨gen_head inp ++ consumed_events rout.1 ++ (assistant_out content).1 ++ tcEvs,
       (assistant_out content).2 ++ tcRows, some e⟩
    | (tcEvs, tcRows, none) =>
      ⟨gen_head inp ++ consumed_events rout.1 ++ (assistant_out content).1
         ++ tcEvs ++ title_events inp content tool_calls ++ [.done],
       (assistant_out content).2 ++ tcRows, none⟩

/-! ### Message persistence
(conversation.py, `add_message_to_conversation`, lines 178-216) -/

/-- The `tool_use` part of a `MessageCreate` payload (`ToolUseCreate`
schema: name and args only). -/
structure ToolUseCreate (J : Type) where
  name : String
  args : J
deriving DecidableEq

/-- The `MessageCreate` payload fields the service reads. -/
structure MessageCreate (J : Type) where
  role : String
  content : String
  tool_use : Option (ToolUseCreate J)
deriving DecidableEq

/-- Row of `mcp_tool_uses` (model `MCPToolUse`).  The `state` column is
declared `nullable=False` with no default, so a constructed row on
which `state` was never assigned carries `none`. -/
structure MCPToolUse (J : Type) where
  name : String
  args : J
  state : Option ToolUseState
  tool : Option MCPTool
deriving DecidableEq

/-- Row of `messages` (model `Message`) with its optional owned
`MCPToolUse`. -/
structure MessageRow (J : Type) where
  role : String
  content : String
  mcp_tool_use : Option (MCPToolUse J)
deriving DecidableEq

/-- Embeds `add_message_to_conversation`: build the `Message` row and,
when a `tool_use` payload is present, an `MCPToolUse` row via
`MCPToolUse(name=..., args=..., tool=mcp_tool)` — the constructor call
passes no `state`, so the created row has no state. -/
def add_message_to_conversation (message_in : MessageCreate J)
    (mcp_tool : Option MCPTool) : MessageRow J :=
  { role := message_in.role,
    content := message_in.content,
    mcp_tool_use := message_in.tool_use.map fun tu =>
      { name := tu.name, args := tu.args, state := none, tool := mcp_tool } }

/-! ### Tool invocation executor
(chat.py, `handle_tool_call`, lines 612-673) -/

/-- One content item of a tool-server response; only text items carry
payload the code reads (`TextContent.text`), all other kinds are
grouped as `other`. -/
inductive ContentItem where
  | text (s : String)
  | other
deriving DecidableEq

/-- Exceptions raised by `handle_tool_call` before the server call:
the `Exception("mcp tool not found")`, the `ValueError` from
destructuring `config_part.split("__")` into exactly two names, and
the bare `raise` of `get_preconfigured_url`. -/
inductive HandleErr where
  | toolNotFound
  | splitUnpackError
  | unknownPreconfiguredCode
deriving DecidableEq

/-- What one `handle_tool_call` run did: the final `state` written to
the `MCPToolUse` row, how many tool-server calls were issued, the
content of the persisted `function_call_result` message, and the
returned response text. -/
structure ToolCallOutcome where
  finalState : ToolUseState
  serverCalls : Nat
  persistedResultContent : String
  responseText : String
deriving DecidableEq

/-- Embeds `handle_tool_call`.  The tool server is modelled by
`call_tool : String → String → J → List ContentItem` (url, tool name,
stored arguments ↦ response content items).  The source resolves the
target url and tool name, sets `tool_use.state` from the decision, and
then — unconditionally, on both decisions — opens a session, calls the
tool, flattens the text content items, and persists the result as a
`function_call_result` message. -/
def handle_tool_call (call_tool : String → String → J → List ContentItem)
    (tool_use : MCPToolUse J) (tool_decision : Bool) :
    Except HandleErr ToolCallOutcome := do
  let is_preconfigured := is_preconfigured_call_code tool_use.name
  let config_part := remove_call_code_suffix tool_use.name
  let (url, tool_name) ←
    if !is_preconfigured then
      match tool_use.tool with
      | none => Except.error .toolNotFound
      | some mcp_tool => Except.ok (mcp_tool.mcp_config_url, mcp_tool.name)
    else
      match split_dunder config_part with
      | [code, tool_name] =>
        match get_preconfigured_url code with
        | none => Except.error .unknownPreconfiguredCode
        | some url => Except.ok (url, tool_name)
      | _ => Except.error .splitUnpackError
  let state := if tool_decision then ToolUseState.approved else ToolUseState.rejected
  let result := call_tool url tool_name tool_use.args
  let response_text := result.foldl
    (fun acc item => match item with | .text s => acc ++ s | .other => acc) ""
  pure { finalState := state,
         serverCalls := 1,
         persistedResultContent := response_text,
         responseText := response_text }

/-! ### Private tool-server catalog refresh
(mcp_config.py, `update_tools`, lines 131-168) -/

/-- A stored `mcp_tools` row tagged with its owning config id (the
`mcp_config_id` foreign key), for modelling the scoped delete. -/
structure StoredToolRow where
  mcp_config_id : Nat
  name : String
deriving DecidableEq

/-- What the remote tool server answers to `list_tools`: the tool
list, or an `httpx.HTTPError` anywhere while reaching it. -/
inductive ListToolsReply where
  | ok (tools : List String)
  | unreachable
deriving DecidableEq

/-- The `Result[Literal[True], str]` value `update_tools` returns:
`Ok(True)` or `Err(message)`. -/
inductive RefreshResult where
  | ok
  | err (msg : String)
deriving DecidableEq

/-- Outcome of `update_tools`: the stored rows after the call, and the
returned `Result` value. -/
structure UpdateToolsOutcome where
  rows : List StoredToolRow
  result : RefreshResult
deriving DecidableEq

/-- Embeds `update_tools`: open a session and `list_tools`; only after
a successful listing delete the rows of this config (`delete(MCPTool)
.where(mcp_config_id == config.id)`) and insert the listed tools, all
committed in one transaction; an `httpx.HTTPError` while reaching the
server means the transaction is never committed, the stored rows stay
exactly as they were, and a configuration error is returned. -/
def update_tools (config_id : Nat) (reply : ListToolsReply)
    (stored : List StoredToolRow) : UpdateToolsOutcome :=
  match reply with
  | .unreachable =>
    { rows := stored,
      result := .err "Server URL does not seem to be a valid SSE url" }
  | .ok tools =>
    { rows := stored.filter (fun row => row.mcp_config_id != config_id)
        ++ tools.map (fun name => { mcp_config_id := config_id, name := name }),
      result := .ok }

/-! ### Helper lemmas: call codes -/

lemma user_code_data (c : String) : (user_code c).data = c.data ++ ['_', 'u'] := by
  rw [user_code, String.data_append]

lemma preconfigured_code_data (c : String) :
    (preconfigured_code c).data = c.data ++ ['_', 'p'] := by
  rw [preconfigured_code, String.data_append]

lemma is_user_call_code_user_code (c : String) : is_user_call_code (user_code c) = true := by
  simp [is_user_call_code, user_code_data, List.reverse_append]

lemma is_user_call_code_preconfigured_code (c : String) :
    is_user_call_code (preconfigured_code c) = false := by
  simp [is_user_call_code, preconfigured_code_data, List.reverse_append]

lemma is_preconfigured_call_code_preconfigured_code (c : String) :
    is_preconfigured_call_code (preconfigured_code c) = true := by
  simp [is_preconfigured_call_code, preconfigured_code_data, List.reverse_append]

lemma is_preconfigured_call_code_user_code (c : String) :
    is_preconfigured_call_code (user_code c) = false := by
  simp [is_preconfigured_call_code, user_code_data, List.reverse_append]

lemma remove_call_code_suffix_user_code (c : String) :
    remove_call_code_suffix (user_code c) = c := by
  apply String.ext
  show ((user_code c).data.dropLast).dropLast = c.data
  rw [user_code_data]
  rw [show c.data ++ ['_', 'u'] = (c.data ++ ['_']) ++ ['u'] by simp]
  rw [List.dropLast_concat, List.dropLast_concat]

lemma remove_call_code_suffix_preconfigured_code (c : String) :
    remove_call_code_suffix (preconfigured_code c) = c := by
  apply String.ext
  show ((preconfigured_code c).data.dropLast).dropLast = c.data
  rw [preconfigured_code_data]
  rw [show c.data ++ ['_', 'p'] = (c.data ++ ['_']) ++ ['p'] by simp]
  rw [List.dropLast_concat, List.dropLast_concat]

lemma user_code_injective {a b : String} (h : user_code a = user_code b) : a = b := by
  have h2 := congrArg String.data h
  rw [user_code_data, user_code_data] at h2
  exact String.ext (List.append_cancel_right h2)

lemma user_code_ne_preconfigured_code (a b : String) : user_code a ≠ preconfigured_code b := by
  intro h
  have h2 := congrArg is_user_call_code h
  rw [is_user_call_code_user_code, is_user_call_code_preconfigured_code] at h2
  exact Bool.noConfusion h2

/-! ### Helper lemmas: the merged catalog -/

lemma mem_preconfigured_names {pc : PreconfiguredMCPConfig} {x : String}
    (hx : x ∈ (get_preconfigured_tools pc true).map
      (fun shape => preconfigured_code shape.name)) :
    (pc.code = "fetch" ∧ x = preconfigured_code "fetch__fetch") ∨
    (pc.code = "sequentialthinking" ∧
      x = preconfigured_code "sequentialthinking__sequentialthinking") := by
  by_cases h1 : pc.code = "fetch"
  · left
    refine ⟨h1, ?_⟩
    simp [get_preconfigured_tools, shape_name, h1] at hx
    rw [hx]
  · by_cases h2 : pc.code = "sequentialthinking"
    · right
      refine ⟨h2, ?_⟩
      simp [get_preconfigured_tools, shape_name, h1, h2] at hx
      rw [hx]
    · simp [get_preconfigured_tools, h1, h2] at hx

lemma preconfigured_names_disjoint {pc₁ pc₂ : PreconfiguredMCPConfig}
    (hcode : pc₁.code ≠ pc₂.code) {x y : String}
    (hx : x ∈ (get_preconfigured_tools pc₁ true).map
      (fun shape => preconfigured_code shape.name))
    (hy : y ∈ (get_preconfigured_tools pc₂ true).map
      (fun shape => preconfigured_code shape.name)) : x ≠ y := by
  rcases mem_preconfigured_names hx with ⟨hc1, hx⟩ | ⟨hc1, hx⟩ <;>
    rcases mem_preconfigured_names hy with ⟨hc2, hy⟩ | ⟨hc2, hy⟩
  · exact absurd (hc1.trans hc2.symm) hcode
  · rw [hx, hy]; decide
  · rw [hx, hy]; decide
  · exact absurd (hc1.trans hc2.symm) hcode

lemma preconfigured_names_pairwise :
    ∀ (l : List PreconfiguredMCPConfig), (l.map (·.code)).Pairwise (· ≠ ·) →
      (l.flatMap fun pc => (get_preconfigured_tools pc true).map
        (fun shape => preconfigured_code shape.name)).Pairwise (· ≠ ·)
  | [], _ => List.Pairwise.nil
  | pc :: l, h => by
    rw [List.map_cons, List.pairwise_cons] at h
    rw [List.flatMap_cons, List.pairwise_append]
    refine ⟨?_, preconfigured_names_pairwise l h.2, ?_⟩
    · by_cases h1 : pc.code = "fetch"
      · simp [get_preconfigured_tools, h1]
      · by_cases h2 : pc.code = "sequentialthinking"
        · simp [get_preconfigured_tools, h1, h2]
        · simp [get_preconfigured_tools, h1, h2]
    · intro x hx y hy
      rcases List.mem_flatMap.mp hy with ⟨pc', hpc', hy'⟩
      have hcode : pc.code ≠ pc'.code := h.1 pc'.code (List.mem_map_of_mem _ hpc')
      exact preconfigured_names_disjoint hcode hx hy'

lemma catalog_names_eq (user_configs : List MCPConfig)
    (preconfigured_configs : List PreconfiguredMCPConfig) :
    (generate_catalog user_configs preconfigured_configs).map (·.name) =
      (((user_configs.flatMap (·.tools)).map (·.code)).map user_code)
        ++ ((preconfigured_configs.filter (·.enabled)).flatMap fun pc =>
              (get_preconfigured_tools pc true).map
                (fun shape => preconfigured_code shape.name)) := by
  rw [generate_catalog, List.map_append]
  congr 1
  · simp [List.map_flatMap, List.map_map, Function.comp_def]
  · simp [List.map_flatMap, List.map_map, Function.comp_def]

/-! ### Helper lemmas: the stream reconstructor -/

lemma processChunk_argChunk (parse : String → Option J) (buf : UnfinishedCall) (f : String) :
    processChunk parse (some buf) (argChunk f) =
      .ok (some ⟨buf.name, buf.arguments ++ f⟩, []) := rfl

lemma runChunks_argChunks (parse : String → Option J) :
    ∀ (frags : List String) (buf : UnfinishedCall),
      runChunks parse (some buf) (frags.map argChunk) =
        (some ⟨buf.name, buf.arguments ++ frags.foldr (· ++ ·) ""⟩, [], none)
  | [], buf => by
    simp [runChunks, String.append_empty]
  | f :: frags, buf => by
    rw [List.map_cons]
    show runChunks parse (some buf) (argChunk f :: frags.map argChunk) = _
    rw [runChunks, processChunk_argChunk]
    dsimp only
    rw [runChunks_argChunks parse frags ⟨buf.name, buf.arguments ++ f⟩]
    simp [List.foldr_cons, String.append_assoc]

lemma flushCall_ok {parse : String → Option J} {buf : UnfinishedCall} {ev : REvent J}
    (h : flushCall parse buf = .ok ev) :
    ∃ v, parse buf.arguments = some v ∧ ev = .functionCall buf.name v := by
  cases hp : parse buf.arguments with
  | none => simp [flushCall, hp] at h
  | some v =>
    simp [flushCall, hp] at h
    exact ⟨v, rfl, h.symm⟩

lemma flushIfNewCall_mem {parse : String → Option J} {st st1 : Option UnfinishedCall}
    {tc : ToolCallDelta} {evs1 : List (REvent J)} {ev : REvent J}
    (h : flushIfNewCall parse st tc = .ok (st1, evs1)) (hm : ev ∈ evs1) :
    ∃ (buf : UnfinishedCall) (v : J), parse buf.arguments = some v ∧
      ev = .functionCall buf.name v := by
  rcases tc with ⟨tcid, tcfn⟩
  cases tcid with
  | none =>
    simp [flushIfNewCall] at h
    obtain ⟨-, h2⟩ := h
    subst h2
    simp at hm
  | some i =>
    cases st with
    | none =>
      simp [flushIfNewCall] at h
      obtain ⟨-, h2⟩ := h
      subst h2
      simp at hm
    | some buf =>
      cases hp : parse buf.arguments with
      | none => simp [flushIfNewCall, flushCall, hp] at h
      | some v =>
        simp [flushIfNewCall, flushCall, hp] at h
        obtain ⟨-, h2⟩ := h
        subst h2
        simp at hm
        exact ⟨buf, v, hp, hm⟩

lemma applyToolCallDelta_mem {parse : String → Option J} {st st1 : Option UnfinishedCall}
    {tc : ToolCallDelta} {evs1 : List (REvent J)} {ev : REvent J}
    (h : applyToolCallDelta parse st tc = .ok (st1, evs1)) (hm : ev ∈ evs1) :
    ∃ (buf : UnfinishedCall) (v : J), parse buf.arguments = some v ∧
      ev = .functionCall buf.name v := by
  unfold applyToolCallDelta at h
  cases hf : flushIfNewCall parse st tc with
  | error e => rw [hf] at h; exact Except.noConfusion h
  | ok p =>
    rcases p with ⟨st2, evs2⟩
    rw [hf] at h
    dsimp only at h
    cases hfn : tc.function with
    | none =>
      rw [hfn] at h
      dsimp only at h
      rw [Except.ok.injEq, Prod.mk.injEq] at h
      rw [← h.2] at hm
      exact flushIfNewCall_mem hf hm
    | some fd =>
      rw [hfn] at h
      dsimp only at h
      cases ha : applyFunctionDelta st2 fd with
      | error e => rw [ha] at h; exact Except.noConfusion h
      | ok buf =>
        rw [ha] at h
        dsimp only at h
        rw [Except.ok.injEq, Prod.mk.injEq] at h
        rw [← h.2] at hm
        exact flushIfNewCall_mem hf hm

lemma processChunk_event_shape {parse : String → Option J} {st st' : Option UnfinishedCall}
    {c : Chunk} {evs : List (REvent J)} {ev : REvent J}
    (h : processChunk parse st c = .ok (st', evs)) (hm : ev ∈ evs) :
    (∃ d, ev = .text d) ∨
      (∃ (buf : UnfinishedCall) (v : J), parse buf.arguments = some v ∧
        ev = .functionCall buf.name v) := by
  rcases c with ⟨ctc, ccnt⟩
  unfold processChunk at h
  cases ctc with
  | none =>
    dsimp only at h
    cases ccnt with
    | some s =>
      rw [Except.ok.injEq, Prod.mk.injEq] at h
      rw [← h.2] at hm
      simp at hm
      exact Or.inl ⟨s, hm⟩
    | none =>
      rw [Except.ok.injEq, Prod.mk.injEq] at h
      rw [← h.2] at hm
      simp at hm
  | some tc =>
    dsimp only at h
    cases ha : applyToolCallDelta parse st tc with
    | error e => rw [ha] at h; exact Except.noConfusion h
    | ok p =>
      rcases p with ⟨st1, evs1⟩
      rw [ha] at h
      dsimp only at h
      cases ccnt with
      | some s =>
        rw [Except.ok.injEq, Prod.mk.injEq] at h
        rw [← h.2] at hm
        rcases List.mem_append.mp hm with hm | hm
        · exact Or.inr (applyToolCallDelta_mem ha hm)
        · simp at hm
          exact Or.inl ⟨s, hm⟩
      | none =>
        rw [Except.ok.injEq, Prod.mk.injEq] at h
        rw [← h.2] at hm
        exact Or.inr (applyToolCallDelta_mem ha hm)

lemma runChunks_event_shape (parse : String → Option J) :
    ∀ (chunks : List Chunk) (st : Option UnfinishedCall) (ev : REvent J),
      ev ∈ (runChunks parse st chunks).2.1 →
      (∃ d, ev = .text d) ∨
        (∃ (buf : UnfinishedCall) (v : J), parse buf.arguments = some v ∧
          ev = .functionCall buf.name v)
  | [], st, ev => by
    intro hm
    simp [runChunks] at hm
  | c :: cs, st, ev => by
    intro hm
    rw [runChunks] at hm
    cases hp : processChunk parse st c with
    | error e =>
      rw [hp] at hm
      simp at hm
    | ok p =>
      rcases p with ⟨st1, evs1⟩
      rw [hp] at hm
      dsimp only at hm
      rcases hr : runChunks parse st1 cs with ⟨st2, evs2, err2⟩
      rw [hr] at hm
      dsimp only at hm
      rcases List.mem_append.mp hm with hm | hm
      · exact processChunk_event_shape hp hm
      · have hrec := runChunks_event_shape parse cs st1 ev
        rw [hr] at hrec
        exact hrec hm

lemma reconstruct_event_shape {parse : String → Option J} {chunks : List Chunk}
    {term : StreamTermination} {ev : REvent J}
    (hm : ev ∈ (reconstruct parse chunks term).1) :
    (∃ d, ev = .text d) ∨
      (∃ (buf : UnfinishedCall) (v : J), parse buf.arguments = some v ∧
        ev = .functionCall buf.name v) ∨
      ev = .authError ∨ (∃ m, ev = .apiError m) := by
  unfold reconstruct at hm
  rcases hr : runChunks parse none chunks with ⟨st, evs, err⟩
  rw [hr] at hm
  have base : ev ∈ evs →
      (∃ d, ev = .text d) ∨
        (∃ (buf : UnfinishedCall) (v : J), parse buf.arguments = some v ∧
          ev = .functionCall buf.name v) := by
    intro hin
    have hrec := runChunks_event_shape parse chunks none ev
    rw [hr] at hrec
    exact hrec hin
  cases err with
  | some e =>
    dsimp only at hm
    rcases base hm with h | h
    · exact Or.inl h
    · exact Or.inr (Or.inl h)
  | none =>
    dsimp only at hm
    cases term with
    | authFail =>
      dsimp only at hm
      rcases List.mem_append.mp hm with hm | hm
      · rcases base hm with h | h
        · exact Or.inl h
        · exact Or.inr (Or.inl h)
      · simp at hm
        exact Or.inr (Or.inr (Or.inl hm))
    | apiFail m =>
      dsimp only at hm
      rcases List.mem_append.mp hm with hm | hm
      · rcases base hm with h | h
        · exact Or.inl h
        · exact Or.inr (Or.inl h)
      · simp at hm
        exact Or.inr (Or.inr (Or.inr ⟨m, hm⟩))
    | normal =>
      cases st with
      | none =>
        dsimp only at hm
        rcases base hm with h | h
        · exact Or.inl h
        · exact Or.inr (Or.inl h)
      | some buf =>
        dsimp only at hm
        by_cases hname : buf.name ≠ ""
        · rw [if_pos hname] at hm
          cases hfc : flushCall parse buf with
          | error e =>
            rw [hfc] at hm
            dsimp only at hm
            rcases base hm with h | h
            · exact Or.inl h
            · exact Or.inr (Or.inl h)
          | ok ev' =>
            rw [hfc] at hm
            dsimp only at hm
            rcases List.mem_append.mp hm with hm | hm
            · rcases base hm with h | h
              · exact Or.inl h
              · exact Or.inr (Or.inl h)
            · simp at hm
              rcases flushCall_ok hfc with ⟨v, hp, hev⟩
              exact Or.inr (Or.inl ⟨buf, v, hp, hm ▸ hev⟩)
        · rw [if_neg hname] at hm
          rcases base hm with h | h
          · exact Or.inl h
          · exact Or.inr (Or.inl h)

lemma runChunks_cons_ok {parse : String → Option J} {st st1 : Option UnfinishedCall}
    {c : Chunk} {evs1 : List (REvent J)} (cs : List Chunk)
    (h : processChunk parse st c = .ok (st1, evs1)) :
    runChunks parse st (c :: cs) =
      ((runChunks parse st1 cs).1,
       evs1 ++ (runChunks parse st1 cs).2.1,
       (runChunks parse st1 cs).2.2) := by
  rw [runChunks, h]

lemma runChunks_append_ok (parse : String → Option J) :
    ∀ (xs : List Chunk) (ys : List Chunk) (st st1 : Option UnfinishedCall)
      (evs1 : List (REvent J)),
      runChunks parse st xs = (st1, evs1, none) →
      runChunks parse st (xs ++ ys) =
        ((runChunks parse st1 ys).1,
         evs1 ++ (runChunks parse st1 ys).2.1,
         (runChunks parse st1 ys).2.2)
  | [], ys, st, st1, evs1 => by
    intro h
    rw [runChunks] at h
    rw [Prod.mk.injEq, Prod.mk.injEq] at h
    obtain ⟨rfl, rfl, -⟩ := h
    simp
  | x :: xs, ys, st, st1, evs1 => by
    intro h
    rw [runChunks] at h
    cases hp : processChunk parse st x with
    | error e =>
      rw [hp] at h
      rw [Prod.mk.injEq, Prod.mk.injEq] at h
      exact absurd h.2.2 (by simp)
    | ok p =>
      rcases p with ⟨stx, evsx⟩
      rw [hp] at h
      dsimp only at h
      rcases hr : runChunks parse stx xs with ⟨st2, evs2, err2⟩
      rw [hr] at h
      dsimp only at h
      rw [Prod.mk.injEq, Prod.mk.injEq] at h
      obtain ⟨rfl, rfl, rfl⟩ := h
      rw [List.cons_append]
      rw [runChunks_cons_ok (xs ++ ys) hp]
      rw [runChunks_append_ok parse xs ys stx st2 evs2 hr]
      simp [List.append_assoc]

lemma processChunk_flush (parse : String → Option J) (buf : UnfinishedCall) (v : J)
    (i : String) (fd : Option FunctionDelta) (cnt : Option String)
    (st' : Option UnfinishedCall) (evs : List (REvent J))
    (hparse : parse buf.arguments = some v)
    (h : processChunk parse (some ⟨"", ""⟩) (⟨some ⟨none, fd⟩, cnt⟩ : Chunk) = .ok (st', evs)) :
    processChunk parse (some buf) (⟨some ⟨some i, fd⟩, cnt⟩ : Chunk) =
      .ok (st', .functionCall buf.name v :: evs) := by
  simp only [processChunk, applyToolCallDelta, flushIfNewCall, flushCall, hparse] at h ⊢
  cases fd with
  | none =>
    dsimp only at h ⊢
    cases cnt with
    | none =>
      dsimp only at h ⊢
      rw [Except.ok.injEq, Prod.mk.injEq] at h
      obtain ⟨rfl, rfl⟩ := h
      rfl
    | some s =>
      dsimp only at h ⊢
      rw [Except.ok.injEq, Prod.mk.injEq] at h
      obtain ⟨rfl, rfl⟩ := h
      rfl
  | some fdv =>
    dsimp only at h ⊢
    cases hafd : applyFunctionDelta (some (⟨"", ""⟩ : UnfinishedCall)) fdv with
    | error e =>
      rw [hafd] at h
      cases cnt <;> dsimp only at h <;> exact Except.noConfusion h
    | ok nb =>
      rw [hafd] at h
      cases cnt with
      | none =>
        dsimp only at h
        rw [Except.ok.injEq, Prod.mk.injEq] at h
        obtain ⟨rfl, rfl⟩ := h
        rfl
      | some s =>
        dsimp only at h
        rw [Except.ok.injEq, Prod.mk.injEq] at h
        obtain ⟨rfl, rfl⟩ := h
        rfl

lemma processChunk_flush_jsonError (parse : String → Option J) (buf : UnfinishedCall)
    (i : String) (fd : Option FunctionDelta) (cnt : Option String)
    (hparse : parse buf.arguments = none) :
    processChunk parse (some buf) (⟨some ⟨some i, fd⟩, cnt⟩ : Chunk) = .error .jsonDecode := by
  simp only [processChunk, applyToolCallDelta, flushIfNewCall, flushCall, hparse]

lemma reconstruct_of_runChunks_err {parse : String → Option J} {chunks : List Chunk}
    {st : Option UnfinishedCall} {evs : List (REvent J)} {e : RErr} (term : StreamTermination)
    (hrun : runChunks parse none chunks = (st, evs, some e)) :
    reconstruct parse chunks term = (evs, some e) := by
  rw [reconstruct, hrun]

lemma reconstruct_authFail {parse : String → Option J} {chunks : List Chunk}
    {st : Option UnfinishedCall} {evs : List (REvent J)}
    (hrun : runChunks parse none chunks = (st, evs, none)) :
    reconstruct parse chunks .authFail = (evs ++ [.authError], none) := by
  rw [reconstruct, hrun]

lemma reconstruct_eos_flush {parse : String → Option J} {chunks : List Chunk}
    {buf : UnfinishedCall} {evs : List (REvent J)} {v : J}
    (hrun : runChunks parse none chunks = (some buf, evs, none))
    (hname : buf.name ≠ "") (hparse : parse buf.arguments = some v) :
    reconstruct parse chunks .normal = (evs ++ [.functionCall buf.name v], none) := by
  rw [reconstruct, hrun]
  dsimp only
  rw [if_pos hname]
  simp [flushCall, hparse]

lemma reconstruct_eos_jsonError {parse : String → Option J} {chunks : List Chunk}
    {buf : UnfinishedCall} {evs : List (REvent J)}
    (hrun : runChunks parse none chunks = (some buf, evs, none))
    (hname : buf.name ≠ "") (hparse : parse buf.arguments = none) :
    reconstruct parse chunks .normal = (evs, some .jsonDecode) := by
  rw [reconstruct, hrun]
  dsimp only
  rw [if_pos hname]
  simp [flushCall, hparse]

lemma reconstruct_midstream_jsonError (parse : String → Option J) (pre : List Chunk)
    (buf : UnfinishedCall) (evs : List (REvent J)) (i : String) (fd : Option FunctionDelta)
    (cnt : Option String) (rest : List Chunk) (term : StreamTermination)
    (hrun : runChunks parse none pre = (some buf, evs, none))
    (hparse : parse buf.arguments = none) :
    reconstruct parse (pre ++ (⟨some ⟨some i, fd⟩, cnt⟩ : Chunk) :: rest) term
      = (evs, some .jsonDecode) := by
  rw [reconstruct]
  rw [runChunks_append_ok parse pre _ none (some buf) evs hrun]
  rw [runChunks, processChunk_flush_jsonError parse buf i fd cnt hparse]
  simp

/-! ### Helper lemmas: the event generator -/

lemma process_proposals_event_shape (env : ResolutionEnv) :
    ∀ (calls : List (String × J)) (ev : SSE J),
      ev ∈ (process_proposals env calls).1 → ∃ n a, ev = .functionCall n a
  | [], ev => by
    intro hm
    simp [process_proposals] at hm
  | (name, args) :: rest, ev => by
    intro hm
    rw [process_proposals] at hm
    cases hr : resolve_call_code env name with
    | error e =>
      rw [hr] at hm
      simp at hm
    | ok found =>
      rw [hr] at hm
      cases found with
      | false =>
        dsimp only at hm
        exact process_proposals_event_shape env rest ev hm
      | true =>
        dsimp only at hm
        rcases hp : process_proposals env rest with ⟨evs, rows, err⟩
        rw [hp] at hm
        dsimp only at hm
        rcases List.mem_cons.mp hm with hm | hm
        · exact ⟨name, args, hm⟩
        · have hrec := process_proposals_event_shape env rest ev
          rw [hp] at hrec
          exact hrec hm

lemma mem_gen_head {inp : GenInput} {ev : SSE J} (hm : ev ∈ gen_head inp) :
    (∃ i, ev = .userMessageId i) ∨ (∃ i, ev = .conversationCreated i) := by
  unfold gen_head at hm
  rcases List.mem_append.mp hm with hm | hm
  · cases hu : inp.userMsgId with
    | none => rw [hu] at hm; simp at hm
    | some i =>
      rw [hu] at hm
      simp at hm
      exact Or.inl ⟨i, hm⟩
  · by_cases hn : inp.isNew
    · rw [if_pos hn] at hm
      simp at hm
      exact Or.inr ⟨inp.convId, hm⟩
    · rw [if_neg hn] at hm
      simp at hm

lemma mem_consumed_events {evs : List (REvent J)} {ev : SSE J}
    (hm : ev ∈ consumed_events evs)
    (hshape : ∀ e ∈ evs, (∃ d, e = REvent.text d) ∨
      (∃ (n : String) (a : J), e = REvent.functionCall n a)) :
    ∃ d, ev = SSE.message d := by
  unfold consumed_events at hm
  rcases List.mem_filterMap.mp hm with ⟨e, he, hfe⟩
  rcases hshape e he with ⟨d, rfl⟩ | ⟨n, a, rfl⟩
  · exact ⟨d, by simpa using hfe.symm⟩
  · simp at hfe

lemma mem_title_events {inp : GenInput} {content : String} {tool_calls : List (String × J)}
    {ev : SSE J} (hm : ev ∈ title_events inp content tool_calls) :
    ev = SSE.titleUpdated inp.titleResult := by
  unfold title_events at hm
  split at hm
  · simpa using hm
  · simp at hm

lemma stream_text_concat_authError (evs : List (REvent J)) :
    stream_text (evs ++ [REvent.authError]) = stream_text evs := by
  simp [stream_text, List.foldl_append]

lemma stream_tool_calls_concat_authError (evs : List (REvent J)) :
    stream_tool_calls (evs ++ [REvent.authError]) = stream_tool_calls evs := by
  simp [stream_tool_calls, List.filterMap_append]

lemma consumed_events_concat_authError (evs : List (REvent J)) :
    consumed_events (evs ++ [REvent.authError]) = consumed_events evs ++ [SSE.authError] := by
  simp [consumed_events, List.filterMap_append]

/-! ### Claim theorems -/

/-- C1.  The claim states that rejecting a pending ToolUse issues no
tool-server call and persists an empty-content `function_call_result`.
The code violates it: `handle_tool_call` sets the state from the
decision and then calls the tool and persists its real result
unconditionally.  At the concrete rejected input below (preconfigured
`fetch__fetch_p` tool, server answering one text item `ok`), the run
ends in state `rejected` yet issues exactly one server call and
persists the non-empty content `ok`. -/
theorem claim_c1_reject_still_calls_tool :
    handle_tool_call (fun _ _ (_ : Nat) => [ContentItem.text "ok"])
        ⟨"fetch__fetch_p", 0, some ToolUseState.pending, none⟩ false
      = .ok ⟨ToolUseState.rejected, 1, "ok", "ok"⟩
    ∧ (1 : Nat) ≠ 0 ∧ ("ok" : String) ≠ "" :=
  ⟨rfl, by decide, by decide⟩

/-- C2.  The claim states that every ToolUse is in state `pending` at
the moment it is created when a tool-call proposal is persisted.  The
code violates it: `add_message_to_conversation` constructs
`MCPToolUse(name=..., args=..., tool=...)` without assigning the
(`nullable=False`, defaultless) `state` column, so the created row
carries no state at all — while the fixture file sets
`state=ToolUseState.pending` explicitly, showing the intent.  At the
concrete proposal below, the created tool-use row has state `none`,
not `pending`. -/
theorem claim_c2_tool_use_created_without_state :
    (add_message_to_conversation
        (⟨"function_call", "call", some ⟨"fetch__fetch_p", 0⟩⟩ : MessageCreate Nat)
        none).mcp_tool_use.map (fun tu => tu.state) = some none
    ∧ (some none : Option (Option ToolUseState)) ≠ some (some ToolUseState.pending) :=
  ⟨rfl, by decide⟩

/-- C8.  The claim states that a proposal whose name cannot be
resolved is skipped and logged and the turn still completes with
`done`.  The code violates it for a `_p`-suffixed name with no `__`
separator: `[config_code, tool_name, *_] = ....split("__")` raises
`ValueError`, aborting the generator.  At the concrete input below
(proposals `foo_p` then the resolvable `ab12_u`), the turn aborts with
the unpack error, emits no `done`, and never persists the second,
perfectly resolvable proposal. -/
theorem claim_c8_malformed_p_name_crashes_turn :
    event_generator
        (⟨some "m1", false, "c",
          ⟨[⟨"http://u", [⟨"ab12", "tool", "http://u"⟩]⟩], []⟩, ""⟩ : GenInput)
        ([REvent.functionCall "foo_p" (0 : Nat), REvent.functionCall "ab12_u" 1], none)
      = ⟨[SSE.userMessageId "m1"], [], some GenErr.resolveValueError⟩
    ∧ SSE.done ∉ ([SSE.userMessageId "m1"] : List (SSE Nat)) := by
  refine ⟨?_, by decide⟩
  rfl

/-- C9.  `update_tools` lists the live tools before touching the
stored rows: an unreachable server returns the configuration error
`Err("Server URL does not seem to be a valid SSE url")` with the
stored rows exactly as they were, and a successful listing replaces
exactly the rows of this config (delete scoped by `mcp_config_id`
then insert, committed together) while rows of other configs are
untouched. -/
theorem claim_c9_refresh_transactional (config_id : Nat) (stored : List StoredToolRow) :
    (update_tools config_id .unreachable stored).rows = stored
    ∧ (update_tools config_id .unreachable stored).result =
        .err "Server URL does not seem to be a valid SSE url"
    ∧ (∀ (tools : List String) (row : StoredToolRow),
        row ∈ (update_tools config_id (.ok tools) stored).rows ↔
          ((row ∈ stored ∧ row.mcp_config_id ≠ config_id) ∨
           (row.mcp_config_id = config_id ∧ row.name ∈ tools)))
    ∧ (∀ tools : List String, (update_tools config_id (.ok tools) stored).result = .ok) := by
  refine ⟨rfl, rfl, ?_, fun tools => rfl⟩
  intro tools row
  rcases row with ⟨rid, rname⟩
  simp [update_tools, List.mem_filter, List.mem_append, List.mem_map, bne_iff_ne,
    StoredToolRow.mk.injEq]
  constructor
  · rintro (⟨hmem, hne⟩ | ⟨hname, rfl⟩)
    · exact Or.inl ⟨hmem, hne⟩
    · exact Or.inr ⟨rfl, hname⟩
  · rintro (⟨hmem, hne⟩ | ⟨rfl, hname⟩)
    · exact Or.inl ⟨hmem, hne⟩
    · exact Or.inr ⟨hname, rfl⟩

/-- C10.  Every provider payload built by `_generate_litellm_response`
— the main turn and the secondary title-generation call both go
through it — begins with the one fixed synthetic system-instruction
message; a history message is silently omitted exactly when it has no
content field or its role is none of `user`, `assistant`, `system`,
`function_call`, `function_call_result`; and a `system`-role message
is forwarded as a `user`-role message prefixed with `System: `. -/
theorem claim_c10_provider_payload :
    (∀ msgs : List HistoryMessage,
      (format_messages msgs).head? = some system_instruction ∧
      format_messages msgs = system_instruction :: msgs.filterMap format_message)
    ∧ (∀ m : HistoryMessage, format_message m = none ↔
        (m.content = none ∨
          m.role ∉ (["user", "assistant", "system", "function_call",
            "function_call_result"] : List String)))
    ∧ (∀ c : String, format_message ⟨"system", some c⟩ = some ⟨"user", "System: " ++ c⟩)
    ∧ (∀ prompt : String,
        (title_generation_messages prompt).head? = some system_instruction) := by
  refine ⟨fun msgs => ⟨rfl, rfl⟩, ?_, fun c => rfl, fun prompt => rfl⟩
  intro m
  rcases m with ⟨role, content⟩
  cases content with
  | none => simp [format_message]
  | some c =>
    by_cases h1 : role = "user"
    · simp [format_message, h1]
    · by_cases h2 : role = "assistant"
      · simp [format_message, h1, h2]
      · by_cases h3 : role = "system"
        · simp [format_message, h1, h2, h3]
        · by_cases h4 : role = "function_call"
          · simp [format_message, h1, h2, h3, h4]
          · by_cases h5 : role = "function_call_result"
            · simp [format_message, h1, h2, h3, h4, h5]
            · simp [format_message, h1, h2, h3, h4, h5]

/-- C7.  Under the database constraints the source relies on (user
tool short codes globally unique — constraint `uq_tool_code` — and one
preconfigured config row per code), the merged catalog built by
`generate_chat_response` never contains two entries with the same
namespaced code; the scenario codes evaluate as the spec says
(`ab12 ↦ ab12_u`, `fetch/fetch ↦ fetch__fetch_p`, distinct); mapping a
code back to its origin depends only on its two-character suffix; and
namespacing, suffix-stripping and origin classification round-trip on
both origins (idempotence). -/
theorem claim_c7_catalog_unique_origin
    (user_configs : List MCPConfig)
    (preconfigured_configs : List PreconfiguredMCPConfig)
    (hUser : ((user_configs.flatMap (·.tools)).map (·.code)).Pairwise (· ≠ ·))
    (hPre : (preconfigured_configs.map (·.code)).Pairwise (· ≠ ·)) :
    ((generate_catalog user_configs preconfigured_configs).map (·.name)).Pairwise (· ≠ ·)
    ∧ user_code "ab12" = "ab12_u"
    ∧ preconfigured_code "fetch__fetch" = "fetch__fetch_p"
    ∧ ("ab12_u" : String) ≠ "fetch__fetch_p"
    ∧ (∀ s t : String, s.data.reverse.take 2 = t.data.reverse.take 2 →
        call_code_origin s = call_code_origin t)
    ∧ (∀ c : String, call_code_origin (user_code c) = some CallOrigin.user
        ∧ remove_call_code_suffix (user_code c) = c
        ∧ user_code (remove_call_code_suffix (user_code c)) = user_code c)
    ∧ (∀ c : String, call_code_origin (preconfigured_code c) = some CallOrigin.preconfigured
        ∧ remove_call_code_suffix (preconfigured_code c) = c
        ∧ preconfigured_code (remove_call_code_suffix (preconfigured_code c))
            = preconfigured_code c) := by
  refine ⟨?_, by decide, by decide, by decide, ?_, ?_, ?_⟩
  · rw [catalog_names_eq, List.pairwise_append]
    refine ⟨?_, ?_, ?_⟩
    · exact List.pairwise_map.mpr (hUser.imp fun h => fun hc => h (user_code_injective hc))
    · refine preconfigured_names_pairwise _ (hPre.sublist ?_)
      exact (List.filter_sublist _).map _
    · intro x hx y hy
      rcases List.mem_map.mp hx with ⟨c, -, hxc⟩
      rcases List.mem_flatMap.mp hy with ⟨pc', -, hy'⟩
      rcases mem_preconfigured_names hy' with ⟨-, hyn⟩ | ⟨-, hyn⟩
      · rw [← hxc, hyn]
        exact user_code_ne_preconfigured_code c _
      · rw [← hxc, hyn]
        exact user_code_ne_preconfigured_code c _
  · intro s t h
    simp only [call_code_origin, is_user_call_code, is_preconfigured_call_code, h]
  · intro c
    refine ⟨?_, remove_call_code_suffix_user_code c, ?_⟩
    · rw [call_code_origin, is_user_call_code_user_code]
      rfl
    · rw [remove_call_code_suffix_user_code]
  · intro c
    refine ⟨?_, remove_call_code_suffix_preconfigured_code c, ?_⟩
    · rw [call_code_origin, is_user_call_code_preconfigured_code,
        is_preconfigured_call_code_preconfigured_code]
      rfl
    · rw [remove_call_code_suffix_preconfigured_code]

/-- C7 witness: the scenario catalog — one private tool coded `ab12`
and the enabled preconfigured `fetch` server — instantiates the
theorem with its distinctness hypotheses discharged. -/
theorem claim_c7_witness :
    ((([⟨"http://u", [⟨"ab12", "t", "http://u"⟩]⟩] : List MCPConfig).flatMap
        (·.tools)).map (·.code)).Pairwise (· ≠ ·)
    ∧ (([⟨"fetch", true⟩] : List PreconfiguredMCPConfig).map (·.code)).Pairwise (· ≠ ·)
    ∧ (((generate_catalog [⟨"http://u", [⟨"ab12", "t", "http://u"⟩]⟩]
          [⟨"fetch", true⟩]).map (·.name)).Pairwise (· ≠ ·)
        ∧ user_code "ab12" = "ab12_u"
        ∧ preconfigured_code "fetch__fetch" = "fetch__fetch_p"
        ∧ ("ab12_u" : String) ≠ "fetch__fetch_p"
        ∧ (∀ s t : String, s.data.reverse.take 2 = t.data.reverse.take 2 →
            call_code_origin s = call_code_origin t)
        ∧ (∀ c : String, call_code_origin (user_code c) = some CallOrigin.user
            ∧ remove_call_code_suffix (user_code c) = c
            ∧ user_code (remove_call_code_suffix (user_code c)) = user_code c)
        ∧ (∀ c : String,
            call_code_origin (preconfigured_code c) = some CallOrigin.preconfigured
            ∧ remove_call_code_suffix (preconfigured_code c) = c
            ∧ preconfigured_code (remove_call_code_suffix (preconfigured_code c))
                = preconfigured_code c)) :=
  ⟨by simp, by simp,
   claim_c7_catalog_unique_origin [⟨"http://u", [⟨"ab12", "t", "http://u"⟩]⟩]
     [⟨"fetch", true⟩] (by simp) (by simp)⟩

/-- C5.  For every chunk sequence consisting of one call-start chunk
(carrying the call id and a non-empty function name) followed by any
split of the argument text into fragment chunks, the reconstructor
emits exactly one `function_call` event whose arguments are the parse
of the concatenation of all fragments — independent of where the
fragment boundaries fall. -/
theorem claim_c5_single_call_roundtrip (parse : String → Option J) (cid name : String)
    (frags : List String) (v : J) (hname : name ≠ "")
    (hparse : parse (frags.foldr (· ++ ·) "") = some v) :
    reconstruct parse
        ((⟨some ⟨some cid, some ⟨some name, none⟩⟩, none⟩ : Chunk) :: frags.map argChunk)
        .normal
      = ([.functionCall name v], none) := by
  rw [reconstruct, runChunks]
  have h1 : processChunk parse none
      (⟨some ⟨some cid, some ⟨some name, none⟩⟩, none⟩ : Chunk)
      = .ok (some ⟨name, ""⟩, []) := by
    simp [processChunk, applyToolCallDelta, flushIfNewCall, applyFunctionDelta, hname]
  rw [h1]
  dsimp only
  rw [runChunks_argChunks]
  simp [String.empty_append, flushCall, hparse, hname]

/-- C5 witness: the spec scenario — arguments split into the three
chunks `{"u`, `rl":"http://x"`, `}` for tool `fetch_u` — yields
exactly one `function_call` event with the parsed `{"url":"http://x"}`
arguments. -/
theorem claim_c5_witness :
    ("fetch_u" : String) ≠ ""
    ∧ (fun s => if s = "\x7b\"url\":\"http://x\"\x7d" then some (7 : Nat) else none)
        ((["\x7b\"u", "rl\":\"http://x\"", "\x7d"] : List String).foldr (· ++ ·) "")
      = some 7
    ∧ reconstruct
        (fun s => if s = "\x7b\"url\":\"http://x\"\x7d" then some (7 : Nat) else none)
        ((⟨some ⟨some "1", some ⟨some "fetch_u", none⟩⟩, none⟩ : Chunk)
          :: (["\x7b\"u", "rl\":\"http://x\"", "\x7d"] : List String).map argChunk)
        .normal
      = ([.functionCall "fetch_u" 7], none) :=
  ⟨by decide, by decide,
   claim_c5_single_call_roundtrip
     (fun s => if s = "\x7b\"url\":\"http://x\"\x7d" then some (7 : Nat) else none)
     "1" "fetch_u" ["\x7b\"u", "rl\":\"http://x\"", "\x7d"] 7 (by decide) (by decide)⟩

/-- C4.  The flush discipline of the reconstructor: a call-start chunk
arriving while a non-empty (named) buffer is open behaves exactly as
"emit one flush of the buffered call, then process the chunk from a
freshly opened buffer" — so exactly one event is emitted for the
buffered call, before the new buffer; the loop step prepends the
events of a chunk exactly once (so no other event is emitted for a
buffered call); and at end of stream a still-open named buffer is flushed the
same way onto the end of the event sequence. -/
theorem claim_c4_flush_discipline (parse : String → Option J) :
    (∀ (buf : UnfinishedCall) (v : J) (i : String) (fd : Option FunctionDelta)
        (cnt : Option String) (st' : Option UnfinishedCall) (evs : List (REvent J)),
        buf.name ≠ "" →
        parse buf.arguments = some v →
        processChunk parse (some ⟨"", ""⟩) (⟨some ⟨none, fd⟩, cnt⟩ : Chunk) = .ok (st', evs) →
        processChunk parse (some buf) (⟨some ⟨some i, fd⟩, cnt⟩ : Chunk) =
          .ok (st', .functionCall buf.name v :: evs))
    ∧ (∀ (st st1 : Option UnfinishedCall) (c : Chunk) (evs1 : List (REvent J))
        (cs : List Chunk),
        processChunk parse st c = .ok (st1, evs1) →
        runChunks parse st (c :: cs) =
          ((runChunks parse st1 cs).1, evs1 ++ (runChunks parse st1 cs).2.1,
           (runChunks parse st1 cs).2.2))
    ∧ (∀ (chunks : List Chunk) (buf : UnfinishedCall) (evs : List (REvent J)) (v : J),
        runChunks parse none chunks = (some buf, evs, none) →
        buf.name ≠ "" →
        parse buf.arguments = some v →
        reconstruct parse chunks .normal = (evs ++ [.functionCall buf.name v], none)) := by
  refine ⟨?_, ?_, ?_⟩
  · intro buf v i fd cnt st' evs _hname hparse h
    exact processChunk_flush parse buf v i fd cnt st' evs hparse h
  · intro st st1 c evs1 cs h
    exact runChunks_cons_ok cs h
  · intro chunks buf evs v hrun hname hparse
    exact reconstruct_eos_flush hrun hname hparse

/-- C4 witness: a buffered call `f` with arguments `{}` is flushed by
an incoming call-start chunk, and the end-of-stream flush emits the
buffered call after the events so far. -/
theorem claim_c4_witness :
    ("f" : String) ≠ ""
    ∧ (fun s => if s = "\x7b\x7d" then some (1 : Nat) else none) "\x7b\x7d" = some 1
    ∧ processChunk (fun s => if s = "\x7b\x7d" then some (1 : Nat) else none)
        (some ⟨"", ""⟩) (⟨some ⟨none, none⟩, none⟩ : Chunk) = .ok (some ⟨"", ""⟩, [])
    ∧ processChunk (fun s => if s = "\x7b\x7d" then some (1 : Nat) else none)
        (some ⟨"f", "\x7b\x7d"⟩) (⟨some ⟨some "2", none⟩, none⟩ : Chunk)
      = .ok (some ⟨"", ""⟩, [REvent.functionCall "f" 1])
    ∧ runChunks (fun s => if s = "\x7b\x7d" then some (1 : Nat) else none) none
        [(⟨some ⟨some "1", some ⟨some "f", some "\x7b\x7d"⟩⟩, none⟩ : Chunk)]
      = (some ⟨"f", "\x7b\x7d"⟩, [], none)
    ∧ reconstruct (fun s => if s = "\x7b\x7d" then some (1 : Nat) else none)
        [(⟨some ⟨some "1", some ⟨some "f", some "\x7b\x7d"⟩⟩, none⟩ : Chunk)] .normal
      = ([REvent.functionCall "f" 1], none) :=
  ⟨by decide, by decide, rfl,
   (claim_c4_flush_discipline
      (fun s => if s = "\x7b\x7d" then some (1 : Nat) else none)).1
     ⟨"f", "\x7b\x7d"⟩ 1 "2" none none (some ⟨"", ""⟩) [] (by decide) (by decide) rfl,
   by decide,
   (claim_c4_flush_discipline
      (fun s => if s = "\x7b\x7d" then some (1 : Nat) else none)).2.2
     [⟨some ⟨some "1", some ⟨some "f", some "\x7b\x7d"⟩⟩, none⟩]
     ⟨"f", "\x7b\x7d"⟩ [] 1 (by decide) (by decide) (by decide)⟩

/-- C6.  Malformed argument JSON at a flush point aborts the turn with
the reconstruction error: a call-start chunk arriving on a buffer
whose argument text does not parse makes the whole stream end in the
`jsonDecode` exception with no further events (in particular no
proposal for the malformed call), the end-of-stream flush of an
unparseable named buffer does the same, and every `function_call`
event any stream ever emits carries arguments that are a successful
parse of some argument text — never guessed or truncated. -/
theorem claim_c6_malformed_arguments_abort (parse : String → Option J) :
    (∀ (pre : List Chunk) (buf : UnfinishedCall) (evs : List (REvent J)) (i : String)
        (fd : Option FunctionDelta) (cnt : Option String) (rest : List Chunk)
        (term : StreamTermination),
        runChunks parse none pre = (some buf, evs, none) →
        parse buf.arguments = none →
        reconstruct parse (pre ++ (⟨some ⟨some i, fd⟩, cnt⟩ : Chunk) :: rest) term
          = (evs, some .jsonDecode))
    ∧ (∀ (chunks : List Chunk) (buf : UnfinishedCall) (evs : List (REvent J)),
        runChunks parse none chunks = (some buf, evs, none) →
        buf.name ≠ "" →
        parse buf.arguments = none →
        reconstruct parse chunks .normal = (evs, some .jsonDecode))
    ∧ (∀ (chunks : List Chunk) (term : StreamTermination) (n : String) (a : J),
        REvent.functionCall n a ∈ (reconstruct parse chunks term).1 →
        ∃ s, parse s = some a) := by
  refine ⟨?_, ?_, ?_⟩
  · intro pre buf evs i fd cnt rest term hrun hparse
    exact reconstruct_midstream_jsonError parse pre buf evs i fd cnt rest term hrun hparse
  · intro chunks buf evs hrun hname hparse
    exact reconstruct_eos_jsonError hrun hname hparse
  · intro chunks term n a hm
    rcases reconstruct_event_shape hm with ⟨d, hd⟩ | ⟨buf, v, hp, hev⟩ | hauth | ⟨m, hapi⟩
    · exact absurd hd (by simp)
    · rw [REvent.functionCall.injEq] at hev
      refine ⟨buf.arguments, ?_⟩
      rw [hev.2]
      exact hp
    · exact absurd hauth (by simp)
    · exact absurd hapi (by simp)

/-- C6 witness: a buffered call `f` with argument text `oops` (which
no parse accepts here) is hit by a new call-start chunk; the stream
aborts with the `jsonDecode` exception and emits nothing. -/
theorem claim_c6_witness :
    runChunks (fun _ => (none : Option Nat)) none
        [(⟨some ⟨some "1", some ⟨some "f", some "oops"⟩⟩, none⟩ : Chunk)]
      = (some ⟨"f", "oops"⟩, [], none)
    ∧ (fun _ => (none : Option Nat)) "oops" = none
    ∧ reconstruct (fun _ => (none : Option Nat))
        ([(⟨some ⟨some "1", some ⟨some "f", some "oops"⟩⟩, none⟩ : Chunk)]
          ++ (⟨some ⟨some "2", none⟩, none⟩ : Chunk) :: []) .normal
      = ([], some .jsonDecode) :=
  ⟨by decide, by decide,
   (claim_c6_malformed_arguments_abort (fun _ => (none : Option Nat))).1
     [⟨some ⟨some "1", some ⟨some "f", some "oops"⟩⟩, none⟩]
     ⟨"f", "oops"⟩ [] "2" none none [] .normal (by decide) (by decide)⟩

/-- C3 counterexample.  The claim states that a mid-stream credential
rejection produces no `message_done` event and persists no assistant
message.  But when a text delta arrived before the failure, the code
persists the accumulated text and emits `message_done`: for the
stream [text `Hi`, AuthenticationError], the generator emits
`message`, `auth_error`, `message_done`, `done` and persists the
assistant message `Hi`. -/
theorem claim_c3_counterexample :
    event_generator (⟨none, false, "c", ⟨[], []⟩, ""⟩ : GenInput)
        (reconstruct (fun _ => (none : Option Nat)) [⟨none, some "Hi"⟩] .authFail)
      = ⟨[SSE.message "Hi", SSE.authError, SSE.messageDone "Hi", SSE.done],
         [PersistedRow.assistant "Hi"], none⟩
    ∧ SSE.messageDone "Hi" ∈
        ([SSE.message "Hi", SSE.authError, SSE.messageDone "Hi", SSE.done] : List (SSE Nat))
    ∧ ([PersistedRow.assistant "Hi"] : List (PersistedRow Nat)) ≠ [] :=
  ⟨by decide, by decide, by decide⟩

/-- C3 as amended: when the provider rejects the credential mid-stream
(and the already-received chunks reconstruct without error, and
resolving the already-buffered proposals does not raise), the
caller-facing sequence contains exactly one `auth_error` event and
ends with `done`, `message_done` is emitted exactly once iff a
non-empty text prefix was streamed before the failure — in which case
the assistant message is persisted, contrary to the original claim —
and the tool-call proposals buffered before the failure are still
persisted. -/
theorem claim_c3_auth_error_terminal (parse : String → Option J) (inp : GenInput)
    (chunks : List Chunk) (stf : Option UnfinishedCall) (evs : List (REvent J))
    (tcEvs : List (SSE J)) (tcRows : List (PersistedRow J))
    (hrun : runChunks parse none chunks = (stf, evs, none))
    (hres : process_proposals inp.env (stream_tool_calls evs) = (tcEvs, tcRows, none)) :
    (event_generator inp (reconstruct parse chunks .authFail)).err = none ∧
    ((event_generator inp (reconstruct parse chunks .authFail)).events.countP
        (fun ev => isAuthErrorSSE ev)) = 1 ∧
    (event_generator inp (reconstruct parse chunks .authFail)).events.getLast? =
      some SSE.done ∧
    ((event_generator inp (reconstruct parse chunks .authFail)).events.countP
        (fun ev => isMessageDoneSSE ev)) = (if stream_text evs = "" then 0 else 1) ∧
    (event_generator inp (reconstruct parse chunks .authFail)).persisted =
      (if stream_text evs = "" then [] else [PersistedRow.assistant (stream_text evs)])
        ++ tcRows := by
  rw [reconstruct_authFail hrun]
  have hshape : ∀ e ∈ evs, (∃ d, e = REvent.text d) ∨
      (∃ (n : String) (a : J), e = REvent.functionCall n a) := by
    intro e he
    have hs := runChunks_event_shape parse chunks none e
    rw [hrun] at hs
    rcases hs he with ⟨d, rfl⟩ | ⟨buf, v, -, rfl⟩
    · exact Or.inl ⟨d, rfl⟩
    · exact Or.inr ⟨buf.name, v, rfl⟩
  rw [event_generator]
  dsimp only
  rw [stream_text_concat_authError, stream_tool_calls_concat_authError, hres]
  dsimp only
  rw [consumed_events_concat_authError]
  have hheadA : (gen_head inp : List (SSE J)).countP (fun ev => isAuthErrorSSE ev) = 0 := by
    apply List.countP_eq_zero.mpr
    intro ev hm
    rcases mem_gen_head hm with ⟨i, rfl⟩ | ⟨i, rfl⟩ <;> simp [isAuthErrorSSE]
  have hheadM : (gen_head inp : List (SSE J)).countP (fun ev => isMessageDoneSSE ev) = 0 := by
    apply List.countP_eq_zero.mpr
    intro ev hm
    rcases mem_gen_head hm with ⟨i, rfl⟩ | ⟨i, rfl⟩ <;> simp [isMessageDoneSSE]
  have hconsA : (consumed_events evs).countP (fun ev => isAuthErrorSSE ev) = 0 := by
    apply List.countP_eq_zero.mpr
    intro ev hm
    rcases mem_consumed_events hm hshape with ⟨d, rfl⟩
    simp [isAuthErrorSSE]
  have hconsM : (consumed_events evs).countP (fun ev => isMessageDoneSSE ev) = 0 := by
    apply List.countP_eq_zero.mpr
    intro ev hm
    rcases mem_consumed_events hm hshape with ⟨d, rfl⟩
    simp [isMessageDoneSSE]
  have htcA : tcEvs.countP (fun ev => isAuthErrorSSE ev) = 0 := by
    apply List.countP_eq_zero.mpr
    intro ev hm
    have hs := process_proposals_event_shape inp.env (stream_tool_calls evs) ev
    rw [hres] at hs
    rcases hs hm with ⟨n, a, rfl⟩
    simp [isAuthErrorSSE]
  have htcM : tcEvs.countP (fun ev => isMessageDoneSSE ev) = 0 := by
    apply List.countP_eq_zero.mpr
    intro ev hm
    have hs := process_proposals_event_shape inp.env (stream_tool_calls evs) ev
    rw [hres] at hs
    rcases hs hm with ⟨n, a, rfl⟩
    simp [isMessageDoneSSE]
  have htitleA : ∀ (content : String) (tcs : List (String × J)),
      (title_events inp content tcs).countP (fun ev => isAuthErrorSSE ev) = 0 := by
    intro content tcs
    apply List.countP_eq_zero.mpr
    intro ev hm
    rw [mem_title_events hm]
    simp [isAuthErrorSSE]
  have htitleM : ∀ (content : String) (tcs : List (String × J)),
      (title_events inp content tcs).countP (fun ev => isMessageDoneSSE ev) = 0 := by
    intro content tcs
    apply List.countP_eq_zero.mpr
    intro ev hm
    rw [mem_title_events hm]
    simp [isMessageDoneSSE]
  refine ⟨rfl, ?_, ?_, ?_, ?_⟩
  · simp only [List.countP_append, hheadA, hconsA, htcA, htitleA]
    by_cases hc : stream_text evs = ""
    · simp [assistant_out, hc, isAuthErrorSSE]
    · simp [assistant_out, hc, isAuthErrorSSE]
  · simp only [← List.append_assoc]
    rw [List.getLast?_concat]
  · simp only [List.countP_append, hheadM, hconsM, htcM, htitleM]
    by_cases hc : stream_text evs = ""
    · simp [assistant_out, hc, isMessageDoneSSE, isAuthErrorSSE]
    · simp [assistant_out, hc, isMessageDoneSSE, isAuthErrorSSE]
  · by_cases hc : stream_text evs = ""
    · simp [assistant_out, hc]
    · simp [assistant_out, hc]

/-- C3 witness: a stream with one text chunk `Hi` followed by the
credential rejection, with no buffered proposals, instantiates the
amended theorem with both hypotheses discharged. -/
theorem claim_c3_witness :
    runChunks (fun _ => (none : Option Nat)) none [⟨none, some "Hi"⟩]
      = (none, [REvent.text "Hi"], none)
    ∧ process_proposals (⟨[], []⟩ : ResolutionEnv)
        (stream_tool_calls [REvent.text "Hi"])
      = (([] : List (SSE Nat)), ([] : List (PersistedRow Nat)), none)
    ∧ ((event_generator (⟨some "m1", false, "c", ⟨[], []⟩, ""⟩ : GenInput)
          (reconstruct (fun _ => (none : Option Nat)) [⟨none, some "Hi"⟩] .authFail)).err
        = none ∧
      ((event_generator (⟨some "m1", false, "c", ⟨[], []⟩, ""⟩ : GenInput)
          (reconstruct (fun _ => (none : Option Nat)) [⟨none, some "Hi"⟩]
            .authFail)).events.countP (fun ev => isAuthErrorSSE ev)) = 1 ∧
      (event_generator (⟨some "m1", false, "c", ⟨[], []⟩, ""⟩ : GenInput)
          (reconstruct (fun _ => (none : Option Nat)) [⟨none, some "Hi"⟩]
            .authFail)).events.getLast? = some SSE.done ∧
      ((event_generator (⟨some "m1", false, "c", ⟨[], []⟩, ""⟩ : GenInput)
          (reconstruct (fun _ => (none : Option Nat)) [⟨none, some "Hi"⟩]
            .authFail)).events.countP (fun ev => isMessageDoneSSE ev))
        = (if stream_text ([REvent.text "Hi"] : List (REvent Nat)) = "" then 0 else 1) ∧
      (event_generator (⟨some "m1", false, "c", ⟨[], []⟩, ""⟩ : GenInput)
          (reconstruct (fun _ => (none : Option Nat)) [⟨none, some "Hi"⟩]
            .authFail)).persisted
        = (if stream_text ([REvent.text "Hi"] : List (REvent Nat)) = ""
            then []
            else [PersistedRow.assistant (stream_text ([REvent.text "Hi"] : List (REvent Nat)))]) ++ []) :=
  ⟨by decide, by decide,
   claim_c3_auth_error_terminal (fun _ => (none : Option Nat))
     ⟨some "m1", false, "c", ⟨[], []⟩, ""⟩ [⟨none, some "Hi"⟩] none [REvent.text "Hi"]
     [] [] (by decide) (by decide)⟩

end Chatter
